import Mathlib

/-!
Verification development for the rlm-navigator daemon
(`src/daemon/rlm_daemon.py`, `src/daemon/rlm_repl.py`, `src/daemon/squeezer.py`).

Shallow embedding conventions:
* Python `dict` (insertion-ordered) is modelled as an association list
  `List (String × α)` with lookup/insert/update/delete helpers below.
* Python `str` is modelled as Lean `String`; character-level operations go
  through `String.data` (`List Char`) so that they compute cheaply in the
  kernel.  Python string length and slicing count characters; for the ASCII
  inputs of all concrete theorems below this agrees with UTF-8 byte length.
* `float` mtimes are modelled as `Nat`; only equality of mtimes matters.
* Filesystem state is passed explicitly where a function reads the disk.
-/

set_option autoImplicit false

namespace RLM

/-! ### Python `dict` as an ordered association list -/

/-- `d.get(k)` / `d[k]` — first (unique) binding of `k`. -/
def alookup {α : Type} : List (String × α) → String → Option α
  | [], _ => none
  | (k', v) :: rest, k => if k' = k then some v else alookup rest k

/-- `d[k] = v` — replace in place if `k` is present, else append. -/
def ainsert {α : Type} : List (String × α) → String → α → List (String × α)
  | [], k, v => [(k, v)]
  | (k', v') :: rest, k, v =>
    if k' = k then (k', v) :: rest else (k', v') :: ainsert rest k v

/-- `d.update(u)` — fold `d[k] = v` over the entries of `u`. -/
def aupdate {α : Type} (m upd : List (String × α)) : List (String × α) :=
  upd.foldl (fun acc p => ainsert acc p.1 p.2) m

/-- `d.pop(k, None)` — remove the binding of `k` (keeps order). -/
def adelete {α : Type} (m : List (String × α)) (k : String) : List (String × α) :=
  m.filter (fun p => p.1 ≠ k)

/-- `set(d.keys())` (order retained; keys of a dict are distinct). -/
def akeys {α : Type} (m : List (String × α)) : List String :=
  m.map Prod.fst

/-- `a if a is not None else b` — first defined lookup. -/
def firstSome {α : Type} (a b : Option α) : Option α :=
  match a with
  | some v => some v
  | none => b

/-! ### Chunk boundaries

`ChunkStore.chunk_file` (rlm_daemon.py lines 188-196) computes

    boundaries = []; start = 1
    while start <= total_lines:
        end = min(start + self.chunk_size - 1, total_lines)
        boundaries.append((start, end))
        start = end + 1 - self.overlap
        if end == total_lines: break

The helper `chunk_indices` (rlm_repl.py lines 151-158) duplicates this loop
verbatim (the daemon source notes "same logic as rlm_repl.py:chunk_indices").
The loop is embedded fuel-indexed; when `overlap < size` the loop runs at
most `total` iterations from `start = 1`, so fuel `total` is exact. -/

def chunkLoop (size overlap total : Nat) : Nat → Nat → List (Nat × Nat)
  | 0, _ => []
  | fuel + 1, start =>
    if start ≤ total then
      let e := min (start + size - 1) total
      if e = total then [(start, e)]
      else (start, e) :: chunkLoop size overlap total fuel (e + 1 - overlap)
    else []

/-- Boundary list computed by `ChunkStore.chunk_file`. -/
def chunk_file_boundaries (size overlap total : Nat) : List (Nat × Nat) :=
  chunkLoop size overlap total total 1

/-- Chunk list computed by the sandbox helper `chunk_indices`
(rlm_repl.py lines 140-159); the loop body is the verbatim copy of the one
in `ChunkStore.chunk_file`. -/
def chunk_indices_list (size overlap total : Nat) : List (Nat × Nat) :=
  chunkLoop size overlap total total 1

/-- One step of the replay loop in the `chunks_read` handler
(rlm_daemon.py lines 575-577): `e = min(s + csize - 1, total); s = e + 1 - coverlap`. -/
def chunkStep (size overlap total s : Nat) : Nat :=
  min (s + size - 1) total + 1 - overlap

/-- `s` after running the handler's `for i in range(chunk_idx)` replay loop
`i` times from `s`. -/
def replayFrom (size overlap total : Nat) (s : Nat) : Nat → Nat
  | 0 => s
  | i + 1 => replayFrom size overlap total (chunkStep size overlap total s) i

/-- The inclusive `lines` range `(s, end_line)` reported by the `chunks_read`
handler for chunk index `i` (rlm_daemon.py lines 574-578). -/
def chunks_read_lines (size overlap total i : Nat) : Nat × Nat :=
  let s := replayFrom size overlap total 1 i
  (s, min (s + size - 1) total)

/-- Modelled from the spec §4.D "Boundaries" wording: "Starting at line 1,
chunks are `(s, s+chunk_size-1)` clamped to `total_lines`; next start is
`end + 1 − overlap`; loop halts when the previous end reached `total_lines`."
(No explicit `start ≤ total` guard appears in the spec's wording.) -/
def specChunksAux (size overlap total : Nat) : Nat → Nat → List (Nat × Nat)
  | 0, _ => []
  | fuel + 1, start =>
    let e := min (start + size - 1) total
    if e = total then [(start, e)]
    else (start, e) :: specChunksAux size overlap total fuel (e + 1 - overlap)

/-- Boundary list described by the spec's recurrence, from line 1. -/
def spec_chunk_list (size overlap total : Nat) : List (Nat × Nat) :=
  specChunksAux size overlap total total 1

/-- `manifest.json` contents written by `ChunkStore.chunk_file`
(rlm_daemon.py lines 212-218). -/
structure Manifest where
  total_chunks : Nat
  chunk_size : Nat
  overlap : Nat
  total_lines : Nat
  mtime : Nat
deriving DecidableEq

/-- The manifest `chunk_file` seals for a file of `total` lines. -/
def mkManifest (size overlap total mtime : Nat) : Manifest :=
  { total_chunks := (chunk_file_boundaries size overlap total).length
    chunk_size := size
    overlap := overlap
    total_lines := total
    mtime := mtime }

/-! ### Output truncation (rlm_repl.py lines 26, 261-265) -/

def MAX_OUTPUT_CHARS : Nat := 8000

/-- Python `len` on `str` (characters). -/
def strLen (s : String) : Nat := s.data.length

/-- Python slice `s[:n]`. -/
def strTake (s : String) (n : Nat) : String := String.mk (s.data.take n)

/-- The stdout truncation applied inside `RLMRepl.exec`:

    if len(output) > MAX_OUTPUT_CHARS:
        remaining = len(output) - MAX_OUTPUT_CHARS
        tokens_est = remaining // 4
        output = output[:MAX_OUTPUT_CHARS] + f"\n... (truncated, {remaining} more chars, ~{tokens_est} tokens)"
-/
def truncateOutput (output : String) : String :=
  if MAX_OUTPUT_CHARS < strLen output then
    let remaining := strLen output - MAX_OUTPUT_CHARS
    let tokens_est := remaining / 4
    strTake output MAX_OUTPUT_CHARS ++ "\n... (truncated, " ++ toString remaining
      ++ " more chars, ~" ++ toString tokens_est ++ " tokens)"
  else output

/-- Python `round(n/4)` for a natural `n`: round-half-to-even on the exact
rational `n/4`.  This is the token formula the claim attributes to the code. -/
def pyRoundQuarter (n : Nat) : Nat :=
  match n % 4 with
  | 0 => n / 4
  | 1 => n / 4
  | 3 => n / 4 + 1
  | _ => if n / 4 % 2 = 0 then n / 4 else n / 4 + 1

/-- Modelled from the spec: the truncation suffix with
`<tokens> = round(n/4)` (spec §4.H "Response truncation"). -/
def specTruncate (output : String) : String :=
  if MAX_OUTPUT_CHARS < strLen output then
    let n := strLen output - MAX_OUTPUT_CHARS
    strTake output MAX_OUTPUT_CHARS ++ "\n... (truncated, " ++ toString n
      ++ " more chars, ~" ++ toString (pyRoundQuarter n) ++ " tokens)"
  else output

/-- `n` copies of a character, as a string. -/
def repChar (n : Nat) (c : Char) : String := String.mk (List.replicate n c)

/-! ### The sandbox helper `peek` (rlm_repl.py lines 87-105)

The helper's rendering core is embedded over the list of lines returned by
`readlines()`; the `not isfile` early error return and the tracker recording
are side conditions outside the rendering (the claim quantifies over existing
files).  Arguments are naturals, per the claim's preconditions `start ≥ 1`,
`end ≥ 0` (Python's negative-index slicing is outside that regime). -/

/-- Python slice `l[i:j]` for `0 ≤ i, j`. -/
def pySlice {α : Type} (l : List α) (i j : Nat) : List α := (l.take j).drop i

/-- Python `"".join(...)`. -/
def strJoin : List String → String
  | [] => ""
  | s :: rest => s ++ strJoin rest

/-- Python `f"{n:4d}"`: decimal, right-aligned in a field of width 4. -/
def fmt4 (n : Nat) : String :=
  let s := toString n
  repChar (4 - strLen s) ' ' ++ s

/-- `peek(file_path, start, end)` applied to the lines of an existing file:

    if end is None: end = len(lines)
    start = max(1, start); end = min(end, len(lines))
    selected = lines[start - 1:end]
    return "".join(f"{start + i:4d} | {line}" for i, line in enumerate(selected))
-/
def peek (lines : List String) (start : Nat) (endOpt : Option Nat) : String :=
  let endv := endOpt.getD lines.length
  let start' := max 1 start
  let endc := min endv lines.length
  let selected := pySlice lines (start' - 1) endc
  strJoin (selected.enum.map (fun p => fmt4 (start' + p.1) ++ " | " ++ p.2))

/-- The claim's description of `peek`: exactly the lines numbered
`start..min(end, n)`, each rendered as its 1-based line number in `%4d`
format, `" | "`, and the line text. -/
def specPeek (lines : List String) (start : Nat) (endOpt : Option Nat) : String :=
  let hi := min (endOpt.getD lines.length) lines.length
  strJoin ((List.range' start (hi + 1 - start)).map
    (fun k => fmt4 k ++ " | " ++ lines.getD (k - 1) ""))

/-- Numbered join starting at line number `s` (proof intermediary). -/
def joinNumbered : Nat → List String → String
  | _, [] => ""
  | s, l :: rest => fmt4 s ++ " | " ++ l ++ joinNumbered (s + 1) rest

/-! ### Squeezer: python docstring handling (squeezer.py lines 197-230)

`_extract_signature` for a python `function_definition` node: collect the
`def` header lines, then scan the node's first `block` child for the first
`expression_statement`; if that statement has a `string` child, the
(possibly truncated) string is appended under the signature, indented four
spaces past the node's column.  Tree-sitter nodes are modelled as kind/text
trees; `_get_indent` (the node's column) is passed as `indent`. -/

/-- Python `s.split(c)` for a one-character separator (structural, so it
computes in the kernel; the sources only ever split on `"\n"`). -/
def splitOnCharAux (c : Char) : List Char → List Char → List String
  | [], acc => [String.mk acc.reverse]
  | x :: xs, acc =>
    if x = c then String.mk acc.reverse :: splitOnCharAux c xs []
    else splitOnCharAux c xs (x :: acc)

def splitOnChar (c : Char) (s : String) : List String := splitOnCharAux c s.data []

def pyWhitespace (c : Char) : Bool :=
  c = ' ' || c = '\t' || c = '\n' || c = '\r' || c = '\x0b' || c = '\x0c'

def rstripStr (s : String) : String :=
  String.mk ((s.data.reverse.dropWhile pyWhitespace).reverse)

def lstripStr (s : String) : String :=
  String.mk (s.data.dropWhile pyWhitespace)

def pyStrip (s : String) : String := lstripStr (rstripStr s)

def leadsList {α : Type} [DecidableEq α] : List α → List α → Bool
  | [], _ => true
  | _ :: _, [] => false
  | a :: as, b :: bs => if a = b then leadsList as bs else false

def hasSub (needle : List Char) : List Char → Bool
  | [] => needle.isEmpty
  | c :: rest => leadsList needle (c :: rest) || hasSub needle rest

def pyIn (needle hay : String) : Bool := hasSub needle.data hay.data

def pyEndsWith (suffix s : String) : Bool := leadsList suffix.data.reverse s.data.reverse

def strJoinSep (sep : String) : List String → String
  | [] => ""
  | [x] => x
  | x :: rest => x ++ sep ++ strJoinSep sep rest

inductive TSNode where
  | node (kind : String) (text : String) (children : List TSNode)

def TSNode.kind : TSNode → String
  | .node k _ _ => k

def TSNode.text : TSNode → String
  | .node _ t _ => t

def TSNode.children : TSNode → List TSNode
  | .node _ _ c => c

def findFirstKind (kind : String) : List TSNode → Option TSNode
  | [] => none
  | n :: rest => if n.kind = kind then some n else findFirstKind kind rest

def sigLines : List String → List String
  | [] => []
  | line :: rest =>
    if (pyIn ":" line && pyIn "):" line) || pyEndsWith ":" (rstripStr line) then
      [rstripStr line]
    else
      rstripStr line :: sigLines rest

def extract_signature_py_function (text : String) (children : List TSNode) (indent : Nat) : String :=
  let sig := strJoinSep "\n" (sigLines (splitOnChar '\n' text))
  match findFirstKind "block" children with
  | none => sig
  | some blk =>
    match findFirstKind "expression_statement" blk.children with
    | none => sig
    | some stmt =>
      match findFirstKind "string" stmt.children with
      | none => sig
      | some expr =>
        let doc := pyStrip expr.text
        let doc_lines := splitOnChar '\n' doc
        let doc2 := if 3 < doc_lines.length
          then strJoinSep "\n" (doc_lines.take 3) ++ "\n    ...\"\"\""
          else doc
        sig ++ "\n" ++ repChar indent ' ' ++ "    " ++ doc2

def firstExprStmtString (children : List TSNode) : Option String :=
  (findFirstKind "block" children).bind fun blk =>
    (findFirstKind "expression_statement" blk.children).bind fun stmt =>
      (findFirstKind "string" stmt.children).map TSNode.text

def pySig (text : String) : String := strJoinSep "\n" (sigLines (splitOnChar '\n' text))

def truncDoc (doc : String) : String :=
  if 3 < (splitOnChar '\n' doc).length
  then strJoinSep "\n" ((splitOnChar '\n' doc).take 3) ++ "\n    ...\"\"\""
  else doc

def firstStmtIsStrExpr (children : List TSNode) : Bool :=
  match findFirstKind "block" children with
  | none => false
  | some blk =>
    match blk.children with
    | [] => false
    | stmt :: _ =>
      stmt.kind = "expression_statement" && (findFirstKind "string" stmt.children).isSome

theorem indent_four (indent : Nat) :
    repChar indent ' ' ++ "    " = repChar (indent + 4) ' ' := by
  apply String.ext
  simp only [String.data_append, repChar]
  show List.replicate indent ' ' ++ "    ".data = List.replicate (indent + 4) ' '
  have h4 : "    ".data = List.replicate 4 ' ' := by decide
  rw [h4, ← List.replicate_add]

/-! ### The scripting sandbox (rlm_repl.py `RLMRepl`)

`RLMRepl.exec` (lines 242-320) is embedded as a pure function.  The effect of
`exec(code, self._namespace)` together with the helper calls it triggers is a
`CodeRun`: from the namespace (with the `_rlm_tracker_` marker installed) and
the tracker object's current files dict it yields the mutated namespace, the
tracker files dict as held by the method's `tracker` local, the captured
stdout, and `traceback.format_exc()` when an exception escaped.  Values are
opaque (`PyVal.obj`) except the reserved `_rlm_*` structures; `picklable`
models whether `pickle.dumps` succeeds in `_save_state`.  `_check_staleness`
reads the filesystem through an explicit `fs : String → FStat` (relpath to
mtime).  Session statistics do not affect any of this and are omitted. -/

abbrev FilesMap := List (String × Nat)

/-- `_rlm_deps_` contents; Python keys `"variables"` / `"buffers"`
(`variables` is not a legal Lean field name). -/
structure Deps where
  vars : List (String × FilesMap)
  bufs : List (String × FilesMap)
deriving DecidableEq

inductive PyVal where
  | obj (id : Nat) (picklable : Bool)
  | helperFn (name : String)
  | buffers (b : List (String × List String))
  | meta (exec_count : Nat) (last_exec : Option Nat)
  | deps (d : Deps)
  | tracker
deriving DecidableEq

abbrev Namespace := List (String × PyVal)

def helperNames : List String := ["peek", "grep", "chunk_indices", "write_chunks", "add_buffer"]

def picklableV : PyVal → Bool
  | .obj _ p => p
  | .helperFn _ => false
  | _ => true

def startsUnderscore (k : String) : Bool :=
  match k.data with
  | c :: _ => c = '_'
  | [] => false

def userVisibleKey (k : String) : Bool :=
  !startsUnderscore k && !helperNames.contains k

def new_or_modified (vars_before vars_after : List String) : List String :=
  vars_after.filter (fun k => !vars_before.contains k)
    ++ vars_after.filter (fun k => userVisibleKey k && vars_before.contains k)

def mergeVariables (tracked : FilesMap) (names : List String)
    (vars : List (String × FilesMap)) : List (String × FilesMap) :=
  names.foldl (fun acc n =>
    if startsUnderscore n || helperNames.contains n then acc
    else ainsert acc n (aupdate ((alookup acc n).getD []) tracked)) vars

def execDepsMerge (tracked : FilesMap) (vars_before vars_after : List String) (d : Deps) : Deps :=
  { d with vars := mergeVariables tracked (new_or_modified vars_before vars_after) d.vars }

def getDeps (ns : Namespace) : Deps :=
  match alookup ns "_rlm_deps_" with
  | some (.deps d) => d
  | _ => ⟨[], []⟩

def getMeta (ns : Namespace) : Nat × Option Nat :=
  match alookup ns "_rlm_meta_" with
  | some (.meta c l) => (c, l)
  | _ => (0, none)

inductive FStat where
  | absent
  | mtimeOf (m : Nat)
  | inaccessible

def staleReason (fs : String → FStat) (rel : String) (stored : Nat) : Option String :=
  match fs rel with
  | .absent => some "deleted"
  | .inaccessible => some "inaccessible"
  | .mtimeOf m => if m ≠ stored then some "modified" else none

def staleEntries (fs : String → FStat) (recs : List (String × FilesMap)) :
    List (String × List (String × String)) :=
  recs.filterMap (fun p =>
    let sf := p.2.filterMap (fun q => (staleReason fs q.1 q.2).map (fun r => (q.1, r)))
    if sf.isEmpty then none else some (p.1, sf))

/-- Staleness report; Python keys `"variables"` / `"buffers"`. -/
structure Staleness where
  vars : List (String × List (String × String))
  bufs : List (String × List (String × String))

def check_staleness (fs : String → FStat) (d : Deps) : Option Staleness :=
  let sv := staleEntries fs d.vars
  let sb := staleEntries fs d.bufs
  if sv.isEmpty && sb.isEmpty then none else some ⟨sv, sb⟩

/-- The dict returned by `RLMRepl.exec`; Python key `"variables"`. -/
structure ExecResult where
  success : Bool
  output : String
  varNames : List String
  error : Option String
  staleness_warning : Option Staleness

structure ExecOut where
  result : ExecResult
  ns : Namespace
  saved : Namespace

abbrev CodeRun := Namespace → FilesMap → Namespace × FilesMap × String × Option String

def saveFilter (ns : Namespace) : Namespace :=
  ns.filter (fun p => !(helperNames.contains p.1 || p.1 == "_rlm_tracker_") && picklableV p.2)

def execNs5 (ns0 ns2 : Namespace) (tracked : FilesMap) (now : Nat) : Namespace :=
  let vars_before := akeys (ainsert ns0 "_rlm_tracker_" PyVal.tracker)
  let ns3 :=
    if tracked.isEmpty then ns2
    else ainsert ns2 "_rlm_deps_"
      (PyVal.deps (execDepsMerge tracked vars_before (akeys ns2) (getDeps ns2)))
  let ns4 := adelete ns3 "_rlm_tracker_"
  ainsert ns4 "_rlm_meta_" (PyVal.meta ((getMeta ns4).1 + 1) (some now))

def replExec (fs : String → FStat) (now : Nat) (run : CodeRun) (ns0 : Namespace) : ExecOut :=
  match run (ainsert ns0 "_rlm_tracker_" PyVal.tracker) [] with
  | (ns2, tracked, rawOut, error) =>
    let ns5 := execNs5 ns0 ns2 tracked now
    { result := { success := error.isNone, output := truncateOutput rawOut,
                  varNames := (akeys ns5).filter userVisibleKey,
                  error := error,
                  staleness_warning := check_staleness fs (getDeps ns5) }
      ns := ns5, saved := saveFilter ns5 }

/-! ### Request dispatcher (rlm_daemon.py `handle_request`, lines 416-594)

The dispatcher is embedded over a `World` of subsystem interfaces
(`SkeletonCache.get`, `find_symbol`, `build_tree`, `search_symbols`, the
repl pass-throughs, `ChunkStore.get_manifest` / `read_chunk`), and a parsed
JSON request (requests reach `handle_request` only after `json.loads`
succeeds; malformed bytes are answered before dispatch).  Path handling:
`(root_path / path).resolve()` is modelled lexically over `/`-separated
components on a symlink-free tree (`..` pops a component, as `resolve`
does), and the source's confinement test `abs_path.startswith(str(root_path))`
is the string-prefix test on the rendered paths.  `json.dumps` is embedded
with its default separators and `ensure_ascii` escaping (`\uXXXX` for the
BMP; the concrete inputs below are ASCII).  Session statistics do not change
any response and are omitted; the Python `str()` rendering of non-string
`action` values is approximated in `pyStrJ` (no claim exercises it). -/

def splitPath (s : String) : List String :=
  (splitOnChar '/' s).filter (fun c => c ≠ "")

def pStartsSlash (p : String) : Bool :=
  match p.data with
  | c :: _ => c = '/'
  | [] => false

/-- Lexical resolution of `..` and `.` against an absolute component list. -/
def normalizePath (cs : List String) : List String :=
  cs.foldl (fun acc c =>
    if c = "." then acc else if c = ".." then acc.dropLast else acc ++ [c]) []

/-- Components of `(root_path / path).resolve()` on a symlink-free tree. -/
def resolvedAbs (root : List String) (p : String) : List String :=
  if pStartsSlash p then normalizePath (splitPath p)
  else normalizePath (root ++ splitPath p)

def renderAbs (cs : List String) : String := "/" ++ strJoinSep "/" cs

/-- Python `s.startswith(t)` (here: `t` at the front of `s`). -/
def pyStartsWith (t s : String) : Bool := leadsList t.data s.data

/-- The spec's notion: `child` is `base` itself or a descendant of `base`
(component-wise). -/
def componentsUnder (child base : List String) : Bool := leadsList base child

mutual
inductive J where
  | str (s : String)
  | num (n : Nat)
  | bool (b : Bool)
  | null
  | arr (xs : JItems)
  | obj (fs : JFields)
inductive JItems where
  | nil
  | cons (head : J) (tail : JItems)
inductive JFields where
  | nil
  | cons (key : String) (val : J) (tail : JFields)
end

def hexDigit (n : Nat) : Char :=
  if n < 10 then Char.ofNat (48 + n) else Char.ofNat (87 + n)

/-- `json.dumps` single-character escaping with `ensure_ascii=True`
(non-ASCII shown for the BMP only). -/
def escChar (c : Char) : List Char :=
  if c = '"' then ['\\', '"']
  else if c = '\\' then ['\\', '\\']
  else if c = '\n' then ['\\', 'n']
  else if c = '\t' then ['\\', 't']
  else if c = '\r' then ['\\', 'r']
  else if c = '\x08' then ['\\', 'b']
  else if c = '\x0c' then ['\\', 'f']
  else if c.toNat < 32 then
    ['\\', 'u', '0', '0', hexDigit (c.toNat / 16), hexDigit (c.toNat % 16)]
  else if c.toNat < 127 then [c]
  else ['\\', 'u', hexDigit (c.toNat / 4096 % 16), hexDigit (c.toNat / 256 % 16),
         hexDigit (c.toNat / 16 % 16), hexDigit (c.toNat % 16)]

def jencStr (s : String) : String :=
  String.mk ('"' :: (s.data.flatMap escChar ++ ['"']))

mutual
/-- `json.dumps` with the default separators `(", ", ": ")`. -/
def jdumps : J → String
  | .str s => jencStr s
  | .num n => toString n
  | .bool b => if b then "true" else "false"
  | .null => "null"
  | .arr xs => "[" ++ jdumpsItems xs ++ "]"
  | .obj fs => "\x7b" ++ jdumpsFields fs ++ "\x7d"
def jdumpsItems : JItems → String
  | .nil => ""
  | .cons x .nil => jdumps x
  | .cons x (.cons y t) => jdumps x ++ ", " ++ jdumpsItems (.cons y t)
def jdumpsFields : JFields → String
  | .nil => ""
  | .cons k v .nil => jencStr k ++ ": " ++ jdumps v
  | .cons k v (.cons k2 v2 t) =>
    jencStr k ++ ": " ++ jdumps v ++ ", " ++ jdumpsFields (.cons k2 v2 t)
end

/-- Python `f"{value}"` for the `Unknown action` message (exact for strings;
container reprs are abbreviated, no claim exercises them). -/
def pyStrJ : J → String
  | .str s => s
  | .num n => toString n
  | .bool b => if b then "True" else "False"
  | .null => "None"
  | .arr _ => "<list>"
  | .obj _ => "<dict>"

def jOfStrings : List String → JItems
  | [] => .nil
  | s :: rest => .cons (.str s) (jOfStrings rest)

def jOfManifest (m : Manifest) : J :=
  J.obj (.cons "total_chunks" (.num m.total_chunks)
    (.cons "chunk_size" (.num m.chunk_size)
      (.cons "overlap" (.num m.overlap)
        (.cons "total_lines" (.num m.total_lines)
          (.cons "mtime" (.num m.mtime) .nil)))))

/-- The chunk file `chunk_file` writes for boundary index `i`: the header
line `# <rel> lines <s>-<e>` and the verbatim source lines `s..e`. -/
def chunk_content (rel : String) (lines : List String) (size overlap : Nat)
    (i : Nat) : Option String :=
  match (chunk_file_boundaries size overlap lines.length).get? i with
  | none => none
  | some (s, e) =>
    some ("# " ++ rel ++ " lines " ++ toString s ++ "-" ++ toString e ++ "\n"
      ++ strJoin (pySlice lines (s - 1) e))

/-- A parsed JSON-object request. -/
abbrev Req := List (String × J)

/-- `req.get(k, default)` projected to a string argument. -/
def reqStr (req : Req) (k : String) (d : String) : String :=
  match alookup req k with
  | some (.str s) => s
  | _ => d

/-- `req.get(k, default)` projected to an integer argument. -/
def reqNat (req : Req) (k : String) (d : Nat) : Nat :=
  match alookup req k with
  | some (.num n) => n
  | _ => d

/-- The subsystems `handle_request` dispatches into. -/
structure World where
  root : List String
  cacheGet : String → Option String
  findSym : String → String → Option (Nat × Nat)
  treeJ : String → Nat → J
  searchJ : String → String → J
  cacheSize : Nat
  languages : List String
  replAvailable : Bool
  replInitJ : J
  replStatusJ : J
  replResetJ : J
  replExportJ : J
  replExecJ : String → J
  chunksAvailable : Bool
  manifests : String → Option Manifest
  chunkRead : String → Nat → Option String

def errResp (msg : String) : String :=
  jdumps (J.obj (.cons "error" (.str msg) .nil))

def dispatch (w : World) (req : Req) (a : String) : String :=
  if a = "squeeze" then
      let path := reqStr req "path" ""
      let abs := renderAbs (resolvedAbs w.root path)
      if !pyStartsWith (renderAbs w.root) abs then errResp "Path outside project root"
      else
        match w.cacheGet abs with
        | none => errResp ("File not found: " ++ path)
        | some sk => jdumps (J.obj (.cons "skeleton" (.str sk) .nil))
    else if a = "find" then
      let path := reqStr req "path" ""
      let symbol := reqStr req "symbol" ""
      let abs := renderAbs (resolvedAbs w.root path)
      if !pyStartsWith (renderAbs w.root) abs then errResp "Path outside project root"
      else
        match w.findSym abs symbol with
        | some se =>
          jdumps (J.obj (.cons "start_line" (.num se.1) (.cons "end_line" (.num se.2) .nil)))
        | none => errResp ("Symbol '" ++ symbol ++ "' not found in " ++ path)
    else if a = "tree" then
      let path := reqStr req "path" ""
      let maxd := reqNat req "max_depth" 4
      let abs := if path = "" then renderAbs w.root else renderAbs (resolvedAbs w.root path)
      if !pyStartsWith (renderAbs w.root) abs then errResp "Path outside project root"
      else jdumps (J.obj (.cons "tree" (w.treeJ abs maxd) .nil))
    else if a = "search" then
      let query := reqStr req "query" ""
      let path := reqStr req "path" ""
      let abs := if path = "" then renderAbs w.root else renderAbs (resolvedAbs w.root path)
      if !pyStartsWith (renderAbs w.root) abs then errResp "Path outside project root"
      else jdumps (J.obj (.cons "results" (w.searchJ query abs) .nil))
    else if a = "status" then
      jdumps (J.obj (.cons "status" (.str "alive")
        (.cons "root" (.str (renderAbs w.root))
          (.cons "cache_size" (.num w.cacheSize)
            (.cons "languages" (.arr (jOfStrings w.languages)) .nil)))))
    else if a = "repl_init" then
      if !w.replAvailable then errResp "REPL not available" else jdumps w.replInitJ
    else if a = "repl_exec" then
      if !w.replAvailable then errResp "REPL not available"
      else jdumps (w.replExecJ (reqStr req "code" ""))
    else if a = "repl_status" then
      if !w.replAvailable then errResp "REPL not available" else jdumps w.replStatusJ
    else if a = "repl_reset" then
      if !w.replAvailable then errResp "REPL not available" else jdumps w.replResetJ
    else if a = "repl_export_buffers" then
      if !w.replAvailable then errResp "REPL not available" else jdumps w.replExportJ
    else if a = "chunks_list" then
      if !w.chunksAvailable then errResp "Chunk store not available"
      else
        let path := reqStr req "path" ""
        let abs := renderAbs (resolvedAbs w.root path)
        if !pyStartsWith (renderAbs w.root) abs then errResp "Path outside project root"
        else
          match w.manifests abs with
          | none => jdumps (J.obj (.cons "status" (.str "pending") .nil))
          | some m =>
            jdumps (J.obj (.cons "manifest" (jOfManifest m)
              (.cons "status" (.str "ready") .nil)))
    else if a = "chunks_read" then
      if !w.chunksAvailable then errResp "Chunk store not available"
      else
        let path := reqStr req "path" ""
        let idx := reqNat req "chunk" 0
        let abs := renderAbs (resolvedAbs w.root path)
        if !pyStartsWith (renderAbs w.root) abs then errResp "Path outside project root"
        else
          match w.manifests abs with
          | none => errResp ("No chunks for: " ++ path)
          | some m =>
            match w.chunkRead abs idx with
            | none => errResp ("Chunk " ++ toString idx ++ " not found for: " ++ path)
            | some content =>
              let sl := chunks_read_lines m.chunk_size m.overlap m.total_lines idx
              jdumps (J.obj (.cons "content" (.str content)
                (.cons "chunk" (.num idx)
                  (.cons "total_chunks" (.num m.total_chunks)
                    (.cons "lines" (.str (toString sl.1 ++ "-" ++ toString sl.2)) .nil)))))
  else errResp ("Unknown action: " ++ a)

def handle_request (w : World) (req : Req) : String :=
  match (alookup req "action").getD (J.str "") with
  | J.str a => dispatch w req a
  | other => errResp ("Unknown action: " ++ pyStrJ other)

/-- A minimal project world: root `/home/u/proj`, with a skeleton cached for
the sibling file `/home/u/proj2/secret.txt` (outside the root). -/
def demoWorld : World where
  root := ["home", "u", "proj"]
  cacheGet := fun p => if p = "/home/u/proj2/secret.txt" then some "# secret" else none
  findSym := fun _ _ => none
  treeJ := fun _ _ => J.arr .nil
  searchJ := fun _ _ => J.arr .nil
  cacheSize := 0
  languages := []
  replAvailable := false
  replInitJ := J.null
  replStatusJ := J.null
  replResetJ := J.null
  replExportJ := J.null
  replExecJ := fun _ => J.null
  chunksAvailable := false
  manifests := fun _ => none
  chunkRead := fun _ _ => none

/-- A world with root `/r` whose chunk store holds, for `big.txt`, the chunk
file produced by `chunk_file` from a single 8100-character line. -/
def bigWorld : World where
  root := ["r"]
  cacheGet := fun _ => none
  findSym := fun _ _ => none
  treeJ := fun _ _ => J.arr .nil
  searchJ := fun _ _ => J.arr .nil
  cacheSize := 0
  languages := []
  replAvailable := false
  replInitJ := J.null
  replStatusJ := J.null
  replResetJ := J.null
  replExportJ := J.null
  replExecJ := fun _ => J.null
  chunksAvailable := true
  manifests := fun p => if p = "/r/big.txt" then some (mkManifest 200 20 1 7) else none
  chunkRead := fun p i =>
    if p = "/r/big.txt" then
      (if i = 0 then some ("# big.txt lines 1-1\n" ++ repChar 8100 'a') else none)
    else none

/-! ## Theorems -/

theorem strJoin_enumFrom (s : Nat) :
    ∀ (sel : List String) (k : Nat),
      strJoin ((List.enumFrom k sel).map (fun p => fmt4 (s + p.1) ++ " | " ++ p.2))
        = joinNumbered (s + k) sel := by
  intro sel
  induction sel with
  | nil => intro k; rfl
  | cons x xs ih =>
    intro k
    show (fmt4 (s + k) ++ " | " ++ x) ++ _ = _
    rw [joinNumbered, ih (k + 1)]
    have h : s + (k + 1) = s + k + 1 := by omega
    rw [h]

theorem pySlice_cons_of_lt {α : Type} (d : α) :
    ∀ (l : List α) (i j : Nat), i < j → i < l.length →
      pySlice l i j = l.getD i d :: pySlice l (i + 1) j := by
  intro l
  induction l with
  | nil => intro i j _ h; simp at h
  | cons a t ih =>
    intro i j hij hlen
    cases i with
    | zero =>
      cases j with
      | zero => omega
      | succ j' => simp [pySlice, List.getD]
    | succ i' =>
      cases j with
      | zero => omega
      | succ j' =>
        have h := ih i' j' (by omega) (by simpa using hlen)
        simp only [pySlice, List.take_succ_cons, List.drop_succ_cons] at h ⊢
        exact h

theorem joinNumbered_slice (lines : List String) :
    ∀ (len s : Nat), 1 ≤ s → s - 1 + len ≤ lines.length →
      joinNumbered s (pySlice lines (s - 1) (s - 1 + len))
        = strJoin ((List.range' s len).map
            (fun k => fmt4 k ++ " | " ++ lines.getD (k - 1) "")) := by
  intro len
  induction len with
  | zero =>
    intro s _ _
    have h0 : pySlice lines (s - 1) (s - 1 + 0) = [] := by
      apply List.drop_eq_nil_of_le
      have : (lines.take (s - 1 + 0)).length ≤ s - 1 + 0 := by
        simp [List.length_take]
      omega
    rw [h0]
    rfl
  | succ len ih =>
    intro s hs hlen
    have hcons := pySlice_cons_of_lt "" lines (s - 1) (s - 1 + (len + 1)) (by omega) (by omega)
    rw [show s - 1 + 1 = s from by omega] at hcons
    rw [hcons, joinNumbered]
    have hrng : List.range' s (len + 1) = s :: List.range' (s + 1) len := rfl
    rw [hrng]
    show _ = (fmt4 s ++ " | " ++ lines.getD (s - 1) "") ++ _
    have IH := ih (s + 1) (by omega) (by omega)
    rw [show (s + 1) - 1 = s from by omega] at IH
    rw [show s - 1 + (len + 1) = s + len from by omega]
    rw [IH]

/-- C9: for an existing file and `start ≥ 1` (with `end ≥ 0` or omitted),
`peek` returns exactly the lines `start..min(end, n)`, each prefixed with
its 1-based line number in `%4d | ` format, and returns the empty string
(not an error) when the clamped range is empty. -/
theorem peek_eq_spec (lines : List String) (start : Nat) (endOpt : Option Nat)
    (h1 : 1 ≤ start) :
    peek lines start endOpt = specPeek lines start endOpt
    ∧ (min (endOpt.getD lines.length) lines.length < start →
        peek lines start endOpt = "") := by
  have hmax : max 1 start = start := by omega
  have main : peek lines start endOpt = specPeek lines start endOpt := by
    rw [peek, specPeek]
    simp only [hmax]
    set hi := min (endOpt.getD lines.length) lines.length with hhi
    have hhile : hi ≤ lines.length := by omega
    have henum : (pySlice lines (start - 1) hi).enum
        = List.enumFrom 0 (pySlice lines (start - 1) hi) := rfl
    rw [henum, strJoin_enumFrom start _ 0]
    by_cases hcase : hi + 1 ≤ start
    · have hlen0 : hi + 1 - start = 0 := by omega
      have hsel : pySlice lines (start - 1) hi = [] := by
        apply List.drop_eq_nil_of_le
        have : (lines.take hi).length ≤ hi := by simp [List.length_take]
        omega
      rw [hlen0, hsel]
      rfl
    · have hhieq : hi = start - 1 + (hi + 1 - start) := by omega
      rw [show start + 0 = start from by omega]
      conv_lhs => rw [hhieq]
      exact joinNumbered_slice lines (hi + 1 - start) start h1 (by omega)
  refine ⟨main, fun hlt => ?_⟩
  rw [main, specPeek]
  have h0 : min (endOpt.getD lines.length) lines.length + 1 - start = 0 := by omega
  rw [h0]
  rfl

theorem peek_eq_spec_witness :
    (1 : Nat) ≤ 2
    ∧ (peek ["a\n", "b\n", "c\n"] 2 (some 9) = specPeek ["a\n", "b\n", "c\n"] 2 (some 9)
        ∧ (min ((some 9).getD (["a\n", "b\n", "c\n"] : List String).length)
              (["a\n", "b\n", "c\n"] : List String).length < 2 →
            peek ["a\n", "b\n", "c\n"] 2 (some 9) = "")) :=
  ⟨by decide, peek_eq_spec ["a\n", "b\n", "c\n"] 2 (some 9) (by decide)⟩

theorem strLen_repChar (n : Nat) (c : Char) : strLen (repChar n c) = n := by
  simp [strLen, repChar]

theorem strTake_repChar (n m : Nat) (c : Char) :
    strTake (repChar n c) m = repChar (min m n) c := by
  simp [strTake, repChar, List.take_replicate]

theorem truncateOutput_repChar (n : Nat) (c : Char) (h : 8000 < n) :
    truncateOutput (repChar n c) = repChar 8000 c ++ ("\n... (truncated, " ++ toString (n - 8000)
      ++ " more chars, ~" ++ toString ((n - 8000) / 4) ++ " tokens)") := by
  rw [truncateOutput, strLen_repChar, if_pos (by simpa [MAX_OUTPUT_CHARS] using h),
    strTake_repChar]
  have hmin : min MAX_OUTPUT_CHARS n = 8000 := by
    simp [MAX_OUTPUT_CHARS]; omega
  rw [hmin]
  apply String.ext
  simp only [String.data_append, List.append_assoc, MAX_OUTPUT_CHARS]

theorem specTruncate_repChar (n : Nat) (c : Char) (h : 8000 < n) :
    specTruncate (repChar n c) = repChar 8000 c ++ ("\n... (truncated, " ++ toString (n - 8000)
      ++ " more chars, ~" ++ toString (pyRoundQuarter (n - 8000)) ++ " tokens)") := by
  rw [specTruncate, strLen_repChar, if_pos (by simpa [MAX_OUTPUT_CHARS] using h),
    strTake_repChar]
  have hmin : min MAX_OUTPUT_CHARS n = 8000 := by
    simp [MAX_OUTPUT_CHARS]; omega
  rw [hmin]
  apply String.ext
  simp only [String.data_append, List.append_assoc, MAX_OUTPUT_CHARS]

theorem repChar_append_ne (n : Nat) (c : Char) {s t : String} (h : s ≠ t) :
    repChar n c ++ s ≠ repChar n c ++ t := by
  intro he
  apply h
  apply String.ext
  have := congrArg String.data he
  simp only [String.data_append] at this
  exact List.append_cancel_left this

/-- Loop-guard elimination: on any start position that is still in range, the
`chunk_file` loop and the spec's guardless recurrence produce the same list. -/
theorem chunkLoop_eq_spec (size overlap total : Nat) :
    ∀ fuel start, start ≤ total →
      chunkLoop size overlap total fuel start = specChunksAux size overlap total fuel start := by
  intro fuel
  induction fuel with
  | zero => intro start _; rfl
  | succ f ih =>
    intro start h
    rw [chunkLoop, specChunksAux, if_pos h]
    by_cases he : min (start + size - 1) total = total
    · simp only [he, if_pos rfl]
      simp [he]
    · simp only [if_neg he]
      congr 1
      apply ih
      have hlt : min (start + size - 1) total < total :=
        lt_of_le_of_ne (min_le_right _ _) he
      omega

/-- Element-wise agreement of the generation loop with the `chunks_read`
handler's replay loop, generalized over the start position. -/
theorem chunkLoop_get (size overlap total : Nat) (hso : overlap < size) :
    ∀ (i fuel start : Nat), 1 ≤ start → start ≤ total → total + 1 - start ≤ fuel →
      i < (chunkLoop size overlap total fuel start).length →
      (chunkLoop size overlap total fuel start).get? i
        = some (replayFrom size overlap total start i,
                min (replayFrom size overlap total start i + size - 1) total) := by
  intro i
  induction i with
  | zero =>
    intro fuel start h1 h2 hf _
    cases fuel with
    | zero => omega
    | succ f =>
      rw [chunkLoop, if_pos h2]
      by_cases he : min (start + size - 1) total = total
      · simp [he, replayFrom]
      · simp [he, replayFrom]
  | succ i ih =>
    intro fuel start h1 h2 hf hlen
    cases fuel with
    | zero => omega
    | succ f =>
      rw [chunkLoop, if_pos h2] at hlen ⊢
      by_cases he : min (start + size - 1) total = total
      · simp [he] at hlen
      · have hmin : min (start + size - 1) total = start + size - 1 := by
          rcases le_total (start + size - 1) total with hle | hle
          · exact min_eq_left hle
          · exact absurd (min_eq_right hle) he
        have hlt : start + size - 1 < total := by
          rcases lt_or_ge (start + size - 1) total with hlt | hge
          · exact hlt
          · exact absurd (min_eq_right hge) (by rw [hmin] at he ⊢; omega)
        simp only [he, if_neg, List.get?_cons_succ] at hlen ⊢
        rw [replayFrom]
        have hstep : chunkStep size overlap total start = min (start + size - 1) total + 1 - overlap := rfl
        rw [hstep]
        apply ih f _ (by omega) (by omega) (by omega)
        simpa using hlen

/-- C5: `chunk_file` with `chunk_size=200`, `overlap=20` realizes exactly the
spec's boundary recurrence for every file with at least one line; a 500-line
file yields `(1,200), (181,380), (361,500)` with `total_chunks` 3, and a
200-line file yields the single chunk `(1,200)`. -/
theorem chunk_boundaries_match_spec :
    (∀ total, 1 ≤ total →
        chunk_file_boundaries 200 20 total = spec_chunk_list 200 20 total)
    ∧ chunk_file_boundaries 200 20 500 = [(1, 200), (181, 380), (361, 500)]
    ∧ (mkManifest 200 20 500 0).total_chunks = 3
    ∧ chunk_file_boundaries 200 20 200 = [(1, 200)] := by
  refine ⟨fun total h => ?_, by decide, by decide, by decide⟩
  exact chunkLoop_eq_spec 200 20 total total 1 h

theorem chunk_boundaries_match_spec_witness :
    (1 : Nat) ≤ 500
    ∧ chunk_file_boundaries 200 20 500 = spec_chunk_list 200 20 500 :=
  ⟨by decide, chunk_boundaries_match_spec.1 500 (by decide)⟩

/-- C6: for every manifest with `chunk_size > overlap ≥ 0` and
`total_lines ≥ 1`, and every chunk index `i < total_chunks`, the `lines`
range the `chunks_read` handler reports by replaying the recurrence `i`
times equals the `i`-th pair produced by the generation loop in
`ChunkStore.chunk_file`, which is also the list computed by the sandbox
helper `chunk_indices`. -/
theorem chunks_read_lines_refine (size overlap total i : Nat)
    (hso : overlap < size) (ht : 1 ≤ total)
    (hi : i < (chunk_file_boundaries size overlap total).length) :
    (chunk_file_boundaries size overlap total).get? i
      = some (chunks_read_lines size overlap total i)
    ∧ chunk_indices_list size overlap total = chunk_file_boundaries size overlap total := by
  constructor
  · exact chunkLoop_get size overlap total hso i total 1 (by omega) ht (by omega) hi
  · rfl

theorem chunks_read_lines_refine_witness :
    ((20 : Nat) < 200 ∧ (1 : Nat) ≤ 500
      ∧ 1 < (chunk_file_boundaries 200 20 500).length)
    ∧ (chunk_file_boundaries 200 20 500).get? 1
        = some (chunks_read_lines 200 20 500 1) :=
  ⟨⟨by decide, by decide, by decide⟩,
    (chunks_read_lines_refine 200 20 500 1 (by decide) (by decide) (by decide)).1⟩

/-- C4 (amended): the truncation suffix uses floor division
(`tokens_est = remaining // 4`); it agrees with `round(n/4)` whenever the
removed count is a multiple of 4, and in particular a 20000-character
output is truncated with suffix `... (truncated, 12000 more chars, ~3000 tokens)`. -/
theorem trunc_tokens_floor :
    (∀ output : String, (strLen output - MAX_OUTPUT_CHARS) % 4 = 0 →
        truncateOutput output = specTruncate output)
    ∧ truncateOutput (repChar 20000 'x')
        = repChar 8000 'x' ++ "\n... (truncated, 12000 more chars, ~3000 tokens)" := by
  constructor
  · intro output h
    rw [truncateOutput, specTruncate]
    by_cases hc : MAX_OUTPUT_CHARS < strLen output
    · rw [if_pos hc, if_pos hc]
      have hq : pyRoundQuarter (strLen output - MAX_OUTPUT_CHARS)
          = (strLen output - MAX_OUTPUT_CHARS) / 4 := by
        unfold pyRoundQuarter
        rw [h]
      simp only [hq]
    · rw [if_neg hc, if_neg hc]
  · rw [truncateOutput_repChar 20000 'x' (by norm_num)]
    have h1 : (20000 - 8000 : Nat) = 12000 := by norm_num
    rw [h1]
    have h2 : ((12000 : Nat) / 4) = 3000 := by norm_num
    rw [h2]
    congr 1

theorem trunc_tokens_floor_witness :
    (strLen (repChar 8004 'b') - MAX_OUTPUT_CHARS) % 4 = 0
    ∧ truncateOutput (repChar 8004 'b') = specTruncate (repChar 8004 'b') :=
  ⟨by rw [strLen_repChar]; decide,
    trunc_tokens_floor.1 (repChar 8004 'b') (by rw [strLen_repChar]; decide)⟩

/-- C4 counterexample: an output of 8003 characters removes `n = 3`
characters; the code prints `~0 tokens` (`3 // 4 = 0`) while the claim's
`round(n/4)` is `1`, so the claimed formula fails off multiples of 4. -/
theorem trunc_tokens_not_round :
    truncateOutput (repChar 8003 'a') ≠ specTruncate (repChar 8003 'a')
    ∧ truncateOutput (repChar 8003 'a')
        = repChar 8000 'a' ++ "\n... (truncated, 3 more chars, ~0 tokens)"
    ∧ pyRoundQuarter 3 = 1 := by
  refine ⟨?_, ?_, by decide⟩
  · rw [truncateOutput_repChar 8003 'a' (by norm_num),
      specTruncate_repChar 8003 'a' (by norm_num)]
    have h1 : (8003 - 8000 : Nat) = 3 := by norm_num
    rw [h1]
    apply repChar_append_ne
    decide
  · rw [truncateOutput_repChar 8003 'a' (by norm_num)]
    have h1 : (8003 - 8000 : Nat) = 3 := by norm_num
    rw [h1]
    congr 1


theorem leadsList_append {α : Type} [DecidableEq α] :
    ∀ (p l ext : List α), leadsList p l = true → leadsList p (l ++ ext) = true := by
  intro p
  induction p with
  | nil => intro l ext _; rfl
  | cons a as ih =>
    intro l ext h
    cases l with
    | nil => simp [leadsList] at h
    | cons b bs =>
      simp only [leadsList, List.cons_append] at h ⊢
      by_cases hab : a = b
      · simp only [if_pos hab] at h ⊢
        exact ih bs ext h
      · simp [if_neg hab] at h

/-- C7 (amended): a docstring is appended under a python function signature
exactly when the first `expression_statement` in the function's block has a
`string` child — statements of other kinds before it are skipped, and the
first body statement need not be the string; the appended string is indented
four spaces past the node's column, and a docstring of more than three lines
is truncated to its first three lines followed by a line ending in
`...\"\"\"`. -/
theorem docstring_append_rule (text : String) (children : List TSNode) (indent : Nat) :
    (∀ s, firstExprStmtString children = some s →
        extract_signature_py_function text children indent
          = pySig text ++ "\n" ++ repChar (indent + 4) ' ' ++ truncDoc (pyStrip s))
    ∧ (firstExprStmtString children = none →
        extract_signature_py_function text children indent = pySig text)
    ∧ (∀ doc : String, 3 < (splitOnChar '\n' doc).length →
        pyEndsWith "...\"\"\"" (truncDoc doc) = true) := by
  refine ⟨?_, ?_, ?_⟩
  · intro s hs
    rcases hb : findFirstKind "block" children with _ | blk
    · simp [firstExprStmtString, hb] at hs
    · rcases hst : findFirstKind "expression_statement" blk.children with _ | stmt
      · simp [firstExprStmtString, hb, hst] at hs
      · rcases he : findFirstKind "string" stmt.children with _ | expr
        · simp [firstExprStmtString, hb, hst, he] at hs
        · simp only [firstExprStmtString, hb, hst, he, Option.some_bind, Option.map_some',
            Option.some.injEq] at hs
          subst hs
          simp only [extract_signature_py_function, hb, hst, he]
          apply String.ext
          simp only [String.data_append, List.append_assoc, repChar, truncDoc, pySig]
          have h4 : ([' ', ' ', ' ', ' '] : List Char) = List.replicate 4 ' ' := by decide
          rw [h4]
          simp only [List.replicate_add, List.append_assoc]
  · intro hn
    rcases hb : findFirstKind "block" children with _ | blk
    · simp only [extract_signature_py_function, hb]; rfl
    · rcases hst : findFirstKind "expression_statement" blk.children with _ | stmt
      · simp only [extract_signature_py_function, hb, hst]; rfl
      · rcases he : findFirstKind "string" stmt.children with _ | expr
        · simp only [extract_signature_py_function, hb, hst, he]; rfl
        · simp [firstExprStmtString, hb, hst, he] at hn
  · intro doc h
    rw [truncDoc, if_pos h]
    rw [pyEndsWith, String.data_append, List.reverse_append]
    apply leadsList_append
    decide


/-- C7 counterexample: a function whose block is `pass` followed by a string
expression still gets the string appended as a docstring, although the first
body statement is not a string-literal expression. -/
theorem docstring_after_pass :
    extract_signature_py_function "def f():"
        [TSNode.node "block" "pass\n    \"doc\""
          [TSNode.node "pass_statement" "pass" [],
           TSNode.node "expression_statement" "\"doc\"" [TSNode.node "string" "\"doc\"" []]]] 4
      = "def f():\n        \"doc\""
    ∧ firstStmtIsStrExpr
        [TSNode.node "block" "pass\n    \"doc\""
          [TSNode.node "pass_statement" "pass" [],
           TSNode.node "expression_statement" "\"doc\"" [TSNode.node "string" "\"doc\"" []]]] = false := by
  constructor
  · decide
  · rfl

theorem docstring_append_rule_witness :
    firstExprStmtString
        [TSNode.node "block" "\"d\""
          [TSNode.node "expression_statement" "\"d\"" [TSNode.node "string" "\"d\"" []]]]
      = some "\"d\""
    ∧ extract_signature_py_function "def g():"
        [TSNode.node "block" "\"d\""
          [TSNode.node "expression_statement" "\"d\"" [TSNode.node "string" "\"d\"" []]]] 0
      = pySig "def g():" ++ "\n" ++ repChar (0 + 4) ' ' ++ truncDoc (pyStrip "\"d\"") :=
  ⟨by decide,
    (docstring_append_rule "def g():"
        [TSNode.node "block" "\"d\""
          [TSNode.node "expression_statement" "\"d\"" [TSNode.node "string" "\"d\"" []]]] 0).1
      "\"d\"" (by decide)⟩

theorem alookup_ainsert_self {α : Type} (m : List (String × α)) (k : String) (v : α) :
    alookup (ainsert m k v) k = some v := by
  induction m with
  | nil => simp [ainsert, alookup]
  | cons p rest ih =>
    by_cases h : p.1 = k
    · simp [ainsert, alookup, h]
    · simp only [ainsert]
      rw [if_neg (by exact h)]
      simp only [alookup]
      rw [if_neg (by exact h)]
      exact ih

theorem alookup_ainsert_ne {α : Type} (m : List (String × α)) (k q : String) (v : α)
    (h : k ≠ q) : alookup (ainsert m k v) q = alookup m q := by
  induction m with
  | nil => simp [ainsert, alookup, h]
  | cons p rest ih =>
    by_cases hp : p.1 = k
    · simp only [ainsert]
      rw [if_pos hp]
      simp only [alookup]
      rw [if_neg (by rw [hp]; exact h), if_neg (by rw [hp]; exact h)]
    · simp only [ainsert]
      rw [if_neg hp]
      simp only [alookup]
      by_cases hq : p.1 = q
      · rw [if_pos hq, if_pos hq]
      · rw [if_neg hq, if_neg hq]
        exact ih

theorem alookup_append {α : Type} (l₁ l₂ : List (String × α)) (q : String) :
    alookup (l₁ ++ l₂) q = firstSome (alookup l₁ q) (alookup l₂ q) := by
  induction l₁ with
  | nil => simp [alookup, firstSome]
  | cons p rest ih =>
    by_cases h : p.1 = q
    · simp [alookup, h, firstSome]
    · simp only [List.cons_append, alookup]
      rw [if_neg h, if_neg h]
      exact ih

theorem alookup_aupdate {α : Type} (upd : List (String × α)) :
    ∀ (m : List (String × α)) (q : String),
      alookup (aupdate m upd) q = firstSome (alookup upd.reverse q) (alookup m q) := by
  induction upd with
  | nil => intro m q; simp [aupdate, alookup, firstSome]
  | cons p rest ih =>
    intro m q
    have hstep : aupdate m (p :: rest) = aupdate (ainsert m p.1 p.2) rest := rfl
    rw [hstep, ih]
    have hrev : (p :: rest).reverse = rest.reverse ++ [p] := by simp
    rw [hrev, alookup_append]
    cases hl : alookup rest.reverse q with
    | some v => simp [firstSome]
    | none =>
      simp only [firstSome]
      have h1 : alookup ([p] : List (String × α)) q = if p.1 = q then some p.2 else none := rfl
      rw [h1]
      by_cases h : p.1 = q
      · rw [if_pos h]
        subst h
        exact alookup_ainsert_self m p.1 p.2
      · rw [if_neg h]
        exact alookup_ainsert_ne m p.1 q p.2 h

theorem alookup_adelete_ne {α : Type} (m : List (String × α)) (k0 q : String)
    (h : q ≠ k0) : alookup (adelete m k0) q = alookup m q := by
  induction m with
  | nil => rfl
  | cons p rest ih =>
    by_cases hp : p.1 = k0
    · simp only [adelete, List.filter]
      rw [show (decide (p.1 ≠ k0)) = false by simp [hp]]
      simp only [alookup]
      rw [if_neg (by rw [hp]; exact fun he => h he.symm)]
      exact ih
    · simp only [adelete, List.filter]
      rw [show (decide (p.1 ≠ k0)) = true by simp [hp]]
      simp only [alookup]
      by_cases hq : p.1 = q
      · rw [if_pos hq, if_pos hq]
      · rw [if_neg hq, if_neg hq]
        exact ih

theorem alookup_filter {α : Type} (p : String × α → Bool) :
    ∀ (l : List (String × α)) (k : String) (v : α),
      alookup l k = some v → p (k, v) = true → alookup (l.filter p) k = some v := by
  intro l
  induction l with
  | nil => intro k v h; simp [alookup] at h
  | cons e rest ih =>
    intro k v h hp
    by_cases he : e.1 = k
    · simp only [alookup, if_pos he] at h
      injection h with h2
      have hev : e = (k, v) := by
        obtain ⟨e1, e2⟩ := e
        simp only at he h2
        rw [he, h2]
      have hpe : p e = true := by rw [hev]; exact hp
      simp only [List.filter, hpe]
      simp only [alookup, if_pos he, h2]
    · simp only [alookup, if_neg he] at h
      simp only [List.filter]
      cases hpe : p e with
      | true =>
        simp only [alookup]
        rw [if_neg he]
        exact ih k v h hp
      | false => exact ih k v h hp


theorem userVisibleKey_negb (k : String) :
    userVisibleKey k = !(startsUnderscore k || helperNames.contains k) := by
  rw [userVisibleKey]
  cases startsUnderscore k <;> cases helperNames.contains k <;> rfl

theorem mergeVariables_alookup (tracked : FilesMap) :
    ∀ (names : List String) (vars : List (String × FilesMap)) (q : String), names.Nodup →
      alookup (mergeVariables tracked names vars) q
        = if q ∈ names ∧ userVisibleKey q = true
          then some (aupdate ((alookup vars q).getD []) tracked)
          else alookup vars q := by
  intro names
  induction names with
  | nil =>
    intro vars q _
    simp [mergeVariables]
  | cons n rest ih =>
    intro vars q hnd
    rcases List.nodup_cons.mp hnd with ⟨hnr, hrest⟩
    have hstep : mergeVariables tracked (n :: rest) vars
        = mergeVariables tracked rest
            (if startsUnderscore n || helperNames.contains n then vars
             else ainsert vars n (aupdate ((alookup vars n).getD []) tracked)) := rfl
    rw [hstep, ih _ q hrest]
    by_cases hq : q = n
    · subst hq
      rw [if_neg (fun hc => hnr hc.1)]
      cases hskip : (startsUnderscore q || helperNames.contains q) with
      | true =>
        have huv : userVisibleKey q = false := by rw [userVisibleKey_negb, hskip]; rfl
        rw [if_pos rfl]
        rw [if_neg (fun hc => by rw [huv] at hc; exact Bool.false_ne_true hc.2)]
      | false =>
        have huv : userVisibleKey q = true := by rw [userVisibleKey_negb, hskip]; rfl
        rw [if_neg Bool.false_ne_true]
        rw [if_pos ⟨List.mem_cons_self q rest, huv⟩]
        exact alookup_ainsert_self _ _ _
    · have hV : alookup
          (if startsUnderscore n || helperNames.contains n then vars
           else ainsert vars n (aupdate ((alookup vars n).getD []) tracked)) q
          = alookup vars q := by
        by_cases hskip : (startsUnderscore n || helperNames.contains n) = true
        · rw [if_pos hskip]
        · rw [if_neg hskip]
          exact alookup_ainsert_ne _ _ _ _ (fun he => hq he.symm)
      rw [hV]
      have hiff : (q ∈ rest ∧ userVisibleKey q = true)
          ↔ (q ∈ n :: rest ∧ userVisibleKey q = true) := by
        simp [List.mem_cons, hq]
      exact if_congr hiff rfl rfl


theorem replExec_eq (fs : String → FStat) (now : Nat) (run : CodeRun)
    (ns0 ns2 : Namespace) (tracked : FilesMap) (out : String) (err : Option String)
    (hrun : run (ainsert ns0 "_rlm_tracker_" PyVal.tracker) [] = (ns2, tracked, out, err)) :
    replExec fs now run ns0 =
      { result := { success := err.isNone, output := truncateOutput out,
                    varNames := (akeys (execNs5 ns0 ns2 tracked now)).filter userVisibleKey,
                    error := err,
                    staleness_warning := check_staleness fs (getDeps (execNs5 ns0 ns2 tracked now)) }
        ns := execNs5 ns0 ns2 tracked now
        saved := saveFilter (execNs5 ns0 ns2 tracked now) } := by
  rw [replExec, hrun]

theorem alookup_execNs5 (ns0 ns2 : Namespace) (tracked : FilesMap) (now : Nat)
    (k : String) (h1 : k ≠ "_rlm_meta_") (h2 : k ≠ "_rlm_tracker_") (h3 : k ≠ "_rlm_deps_") :
    alookup (execNs5 ns0 ns2 tracked now) k = alookup ns2 k := by
  simp only [execNs5]
  rw [alookup_ainsert_ne _ _ _ _ (fun he => h1 he.symm)]
  rw [alookup_adelete_ne _ _ _ h2]
  by_cases ht : tracked.isEmpty
  · rw [if_pos ht]
  · rw [if_neg ht]
    rw [alookup_ainsert_ne _ _ _ _ (fun he => h3 he.symm)]

theorem getDeps_execNs5 (ns0 ns2 : Namespace) (tracked : FilesMap) (now : Nat)
    (hT : tracked.isEmpty = false) :
    getDeps (execNs5 ns0 ns2 tracked now)
      = execDepsMerge tracked (akeys (ainsert ns0 "_rlm_tracker_" PyVal.tracker))
          (akeys ns2) (getDeps ns2) := by
  rw [getDeps]
  simp only [execNs5]
  rw [alookup_ainsert_ne _ _ _ _ (by decide)]
  rw [alookup_adelete_ne _ _ _ (by decide)]
  rw [hT]
  rw [if_neg Bool.false_ne_true]
  rw [alookup_ainsert_self]


theorem new_or_modified_mem (vb va : List String) (q : String)
    (huv : userVisibleKey q = true) :
    q ∈ new_or_modified vb va ↔ q ∈ va := by
  simp only [new_or_modified, List.mem_append, List.mem_filter, huv, Bool.not_eq_true',
    Bool.and_eq_true, true_and, Bool.true_and]
  constructor
  · rintro (⟨h, _⟩ | ⟨h, _⟩) <;> exact h
  · intro h
    cases hc : vb.contains q with
    | true => exact Or.inr ⟨h, rfl⟩
    | false => exact Or.inl ⟨h, rfl⟩

theorem new_or_modified_nodup (vb va : List String) (h : va.Nodup) :
    (new_or_modified vb va).Nodup := by
  rw [new_or_modified]
  apply List.Nodup.append (h.filter _) (h.filter _)
  intro q hq1 hq2
  rw [List.mem_filter] at hq1 hq2
  simp only [Bool.not_eq_true', Bool.and_eq_true] at hq1 hq2
  rw [hq1.2] at hq2
  exact Bool.false_ne_true hq2.2.2

/-- C3 (amended): after an `exec` whose helpers tracked at least one file,
the tracker map is merged additively (prior entries retained, new entries
added, overlapping entries updated to the latest recorded mtime — the
`aupdate` characterization in the last conjunct) into the dependency record
of EVERY user-visible name present in the namespace after the call, not only
the created or re-bound ones; records of all other names, and all buffer
records, are unchanged. -/
theorem exec_deps_additive
    (fs : String → FStat) (now : Nat) (run : CodeRun) (ns0 ns2 : Namespace)
    (tracked : FilesMap) (out : String) (err : Option String)
    (hrun : run (ainsert ns0 "_rlm_tracker_" PyVal.tracker) [] = (ns2, tracked, out, err))
    (hT : tracked.isEmpty = false)
    (hnd : (akeys ns2).Nodup) (q : String) :
    alookup (getDeps (replExec fs now run ns0).ns).vars q
      = (if q ∈ akeys ns2 ∧ userVisibleKey q = true
         then some (aupdate ((alookup (getDeps ns2).vars q).getD []) tracked)
         else alookup (getDeps ns2).vars q)
    ∧ (getDeps (replExec fs now run ns0).ns).bufs = (getDeps ns2).bufs
    ∧ (∀ (m upd : FilesMap) (f : String),
        alookup (aupdate m upd) f = firstSome (alookup upd.reverse f) (alookup m f)) := by
  rw [replExec_eq fs now run ns0 ns2 tracked out err hrun]
  simp only
  rw [getDeps_execNs5 ns0 ns2 tracked now hT]
  refine ⟨?_, rfl, fun m upd f => alookup_aupdate upd m f⟩
  show alookup (mergeVariables tracked (new_or_modified _ (akeys ns2)) (getDeps ns2).vars) q = _
  rw [mergeVariables_alookup tracked _ _ q
    (new_or_modified_nodup _ _ hnd)]
  have hiff : (q ∈ new_or_modified (akeys (ainsert ns0 "_rlm_tracker_" PyVal.tracker)) (akeys ns2)
      ∧ userVisibleKey q = true) ↔ (q ∈ akeys ns2 ∧ userVisibleKey q = true) := by
    by_cases huv : userVisibleKey q = true
    · rw [new_or_modified_mem _ _ _ huv]
    · simp [huv]
  exact if_congr hiff rfl rfl


theorem getMeta_execNs5 (ns0 ns2 : Namespace) (tracked : FilesMap) (now : Nat)
    (hm : alookup ns2 "_rlm_meta_" = alookup ns0 "_rlm_meta_") :
    (getMeta (execNs5 ns0 ns2 tracked now)).1 = (getMeta ns0).1 + 1 := by
  have h5 : alookup (execNs5 ns0 ns2 tracked now) "_rlm_meta_"
      = some (PyVal.meta ((getMeta (adelete
          (if tracked.isEmpty then ns2
           else ainsert ns2 "_rlm_deps_"
             (PyVal.deps (execDepsMerge tracked
               (akeys (ainsert ns0 "_rlm_tracker_" PyVal.tracker)) (akeys ns2) (getDeps ns2))))
          "_rlm_tracker_")).1 + 1) (some now)) := by
    simp only [execNs5]
    rw [alookup_ainsert_self]
  rw [getMeta, h5]
  have h4 : alookup (adelete
      (if tracked.isEmpty then ns2
       else ainsert ns2 "_rlm_deps_"
         (PyVal.deps (execDepsMerge tracked
           (akeys (ainsert ns0 "_rlm_tracker_" PyVal.tracker)) (akeys ns2) (getDeps ns2))))
      "_rlm_tracker_") "_rlm_meta_" = alookup ns0 "_rlm_meta_" := by
    rw [alookup_adelete_ne _ _ _ (by decide)]
    by_cases ht : tracked.isEmpty
    · rw [if_pos ht, hm]
    · rw [if_neg ht, alookup_ainsert_ne _ _ _ _ (by decide), hm]
  rw [getMeta, h4]
  rfl

/-- C8: when the executed code raises, `RLMRepl.exec` still returns a
response with `success = false` and the formatted traceback in `error`,
still increments `exec_count` by exactly one, and still persists the
namespace: every binding the code made before raising survives in the
in-memory namespace (no rollback) and, when its value is serializable and
not a helper, in the state written to disk. -/
theorem exec_error_path
    (fs : String → FStat) (now : Nat) (run : CodeRun) (ns0 ns2 : Namespace)
    (tracked : FilesMap) (out : String) (tb : String)
    (hrun : run (ainsert ns0 "_rlm_tracker_" PyVal.tracker) [] = (ns2, tracked, out, some tb)) :
    (replExec fs now run ns0).result.success = false
    ∧ (replExec fs now run ns0).result.error = some tb
    ∧ (alookup ns2 "_rlm_meta_" = alookup ns0 "_rlm_meta_" →
        (getMeta (replExec fs now run ns0).ns).1 = (getMeta ns0).1 + 1)
    ∧ (replExec fs now run ns0).saved = saveFilter (replExec fs now run ns0).ns
    ∧ (∀ (k : String) (v : PyVal), alookup ns2 k = some v →
        k ≠ "_rlm_tracker_" → k ≠ "_rlm_deps_" → k ≠ "_rlm_meta_" →
        alookup (replExec fs now run ns0).ns k = some v
        ∧ (picklableV v = true → helperNames.contains k = false →
            alookup (replExec fs now run ns0).saved k = some v)) := by
  rw [replExec_eq fs now run ns0 ns2 tracked out (some tb) hrun]
  refine ⟨rfl, rfl, ?_, rfl, ?_⟩
  · intro hm
    exact getMeta_execNs5 ns0 ns2 tracked now hm
  · intro k v hk h1 h2 h3
    have h5 : alookup (execNs5 ns0 ns2 tracked now) k = some v := by
      rw [alookup_execNs5 ns0 ns2 tracked now k h3 h1 h2]
      exact hk
    refine ⟨h5, fun hp hh => ?_⟩
    apply alookup_filter _ _ _ _ h5
    have hb : (k == "_rlm_tracker_") = false := by simp [h1]
    simp only [hh, hp, hb, Bool.or_false, Bool.and_true, Bool.not_false]


/-- C2 (amended): the only 8000-character cap in the system is the one
applied to the captured stdout inside `repl_exec`: the exec result's output
is exactly `truncateOutput` of the raw capture, which is the identity up to
8000 characters and preserves exactly the first 8000 characters beyond
that.  Dispatcher responses are not capped (see the counterexample). -/
theorem repl_output_cap
    (fs : String → FStat) (now : Nat) (run : CodeRun) (ns0 ns2 : Namespace)
    (tracked : FilesMap) (out : String) (err : Option String)
    (hrun : run (ainsert ns0 "_rlm_tracker_" PyVal.tracker) [] = (ns2, tracked, out, err)) :
    (replExec fs now run ns0).result.output = truncateOutput out
    ∧ (∀ st : String, strLen st ≤ MAX_OUTPUT_CHARS → truncateOutput st = st)
    ∧ (∀ st : String, MAX_OUTPUT_CHARS < strLen st →
        strTake (truncateOutput st) MAX_OUTPUT_CHARS = strTake st MAX_OUTPUT_CHARS) := by
  refine ⟨?_, ?_, ?_⟩
  · rw [replExec_eq fs now run ns0 ns2 tracked out err hrun]
  · intro st hst
    rw [truncateOutput, if_neg (Nat.not_lt.mpr hst)]
  · intro st hst
    rw [truncateOutput, if_pos hst]
    apply String.ext
    simp only [strTake, String.data_append, List.append_assoc, String.length_mk]
    rw [List.take_append_eq_append_take]
    have hlen : (st.data.take MAX_OUTPUT_CHARS).length = MAX_OUTPUT_CHARS := by
      rw [List.length_take]
      have h8 : MAX_OUTPUT_CHARS < st.data.length := hst
      omega
    rw [List.take_take, Nat.min_self, hlen, Nat.sub_self, List.take_zero, List.append_nil]


/-- C3 counterexample: an `exec` that binds only `y` while `peek` tracked
`a.py` also merges `a.py` into the record of the untouched pre-existing
variable `x` (third conjunct: the code run leaves `x`'s binding unchanged);
the claim's "left unchanged" clause fails. -/
theorem exec_deps_counterexample :
    alookup (getDeps (replExec (fun _ => FStat.mtimeOf 5) 0
        (fun ns _ => (ainsert ns "y" (PyVal.obj 1 true), [("a.py", 5)], "", none))
        [("_rlm_deps_", PyVal.deps ⟨[("x", [])], []⟩), ("x", PyVal.obj 0 true)]).ns).vars "x"
      = some [("a.py", 5)]
    ∧ alookup (getDeps ([("_rlm_deps_", PyVal.deps ⟨[("x", [])], []⟩),
        ("x", PyVal.obj 0 true)] : Namespace)).vars "x" = some []
    ∧ alookup (ainsert (ainsert ([("_rlm_deps_", PyVal.deps ⟨[("x", [])], []⟩),
        ("x", PyVal.obj 0 true)] : Namespace) "_rlm_tracker_" PyVal.tracker)
        "y" (PyVal.obj 1 true)) "x"
      = alookup ([("_rlm_deps_", PyVal.deps ⟨[("x", [])], []⟩),
        ("x", PyVal.obj 0 true)] : Namespace) "x" := by
  refine ⟨by decide, by decide, by decide⟩

theorem exec_deps_additive_witness :
    ((fun (ns : Namespace) (_ : FilesMap) =>
        (ainsert ns "y" (PyVal.obj 1 true), ([("a.py", 5)] : FilesMap), "", (none : Option String)))
      (ainsert [("x", PyVal.obj 0 true)] "_rlm_tracker_" PyVal.tracker) []
      = (ainsert (ainsert [("x", PyVal.obj 0 true)] "_rlm_tracker_" PyVal.tracker) "y" (PyVal.obj 1 true),
         ([("a.py", 5)] : FilesMap), "", (none : Option String)))
    ∧ ([("a.py", 5)] : FilesMap).isEmpty = false
    ∧ (akeys (ainsert (ainsert [("x", PyVal.obj 0 true)] "_rlm_tracker_" PyVal.tracker) "y" (PyVal.obj 1 true))).Nodup
    ∧ (alookup (getDeps (replExec (fun _ => FStat.mtimeOf 5) 0
        (fun (ns : Namespace) (_ : FilesMap) =>
          (ainsert ns "y" (PyVal.obj 1 true), ([("a.py", 5)] : FilesMap), "", (none : Option String)))
        [("x", PyVal.obj 0 true)]).ns).vars "y"
      = (if "y" ∈ akeys (ainsert (ainsert [("x", PyVal.obj 0 true)] "_rlm_tracker_" PyVal.tracker) "y" (PyVal.obj 1 true))
            ∧ userVisibleKey "y" = true
         then some (aupdate ((alookup (getDeps (ainsert (ainsert [("x", PyVal.obj 0 true)] "_rlm_tracker_" PyVal.tracker) "y" (PyVal.obj 1 true))).vars "y").getD []) [("a.py", 5)])
         else alookup (getDeps (ainsert (ainsert [("x", PyVal.obj 0 true)] "_rlm_tracker_" PyVal.tracker) "y" (PyVal.obj 1 true))).vars "y")) :=
  ⟨rfl, by decide, by decide,
    (exec_deps_additive (fun _ => FStat.mtimeOf 5) 0 _ _ _ _ _ _ rfl (by decide) (by decide) "y").1⟩


theorem exec_error_path_witness :
    ((fun (ns : Namespace) (_ : FilesMap) =>
        (ns, ([] : FilesMap), "", some "ZeroDivisionError: division by zero"))
      (ainsert [("_rlm_meta_", PyVal.meta 3 none)] "_rlm_tracker_" PyVal.tracker) []
      = (ainsert [("_rlm_meta_", PyVal.meta 3 none)] "_rlm_tracker_" PyVal.tracker,
         ([] : FilesMap), "", some "ZeroDivisionError: division by zero"))
    ∧ (replExec (fun _ => FStat.mtimeOf 1) 9
        (fun (ns : Namespace) (_ : FilesMap) =>
          (ns, ([] : FilesMap), "", some "ZeroDivisionError: division by zero"))
        [("_rlm_meta_", PyVal.meta 3 none)]).result.success = false
    ∧ (replExec (fun _ => FStat.mtimeOf 1) 9
        (fun (ns : Namespace) (_ : FilesMap) =>
          (ns, ([] : FilesMap), "", some "ZeroDivisionError: division by zero"))
        [("_rlm_meta_", PyVal.meta 3 none)]).result.error
        = some "ZeroDivisionError: division by zero"
    ∧ (getMeta (replExec (fun _ => FStat.mtimeOf 1) 9
        (fun (ns : Namespace) (_ : FilesMap) =>
          (ns, ([] : FilesMap), "", some "ZeroDivisionError: division by zero"))
        [("_rlm_meta_", PyVal.meta 3 none)]).ns).1
        = (getMeta ([("_rlm_meta_", PyVal.meta 3 none)] : Namespace)).1 + 1 :=
  ⟨rfl,
    (exec_error_path (fun _ => FStat.mtimeOf 1) 9 _ _ _ _ _ _ rfl).1,
    (exec_error_path (fun _ => FStat.mtimeOf 1) 9 _ _ _ _ _ _ rfl).2.1,
    (exec_error_path (fun _ => FStat.mtimeOf 1) 9 _ _ _ _ _ _ rfl).2.2.1 (by decide)⟩

theorem repl_output_cap_witness :
    ((fun (ns : Namespace) (_ : FilesMap) =>
        (ns, ([] : FilesMap), "hello", (none : Option String)))
      (ainsert [] "_rlm_tracker_" PyVal.tracker) []
      = (ainsert [] "_rlm_tracker_" PyVal.tracker, ([] : FilesMap), "hello", (none : Option String)))
    ∧ (replExec (fun _ => FStat.mtimeOf 1) 2
        (fun (ns : Namespace) (_ : FilesMap) =>
          (ns, ([] : FilesMap), "hello", (none : Option String))) []).result.output
        = truncateOutput "hello" :=
  ⟨rfl,
    (repl_output_cap (fun _ => FStat.mtimeOf 1) 2 _ _ _ _ _ _ rfl).1⟩



theorem strLen_append (a b : String) : strLen (a ++ b) = strLen a + strLen b := by
  simp [strLen, String.data_append]

theorem strJoin_single (s : String) : strJoin [s] = s := by
  show s ++ "" = s
  apply String.ext
  rw [String.data_append, show ("" : String).data = [] from rfl, List.append_nil]

theorem escChar_length_pos (c : Char) : 1 ≤ (escChar c).length := by
  rw [escChar]
  split_ifs <;> simp

theorem length_le_flatMap_escChar :
    ∀ l : List Char, l.length ≤ (l.flatMap escChar).length := by
  intro l
  induction l with
  | nil => simp
  | cons c t ih =>
    rw [List.flatMap_cons, List.length_append]
    have := escChar_length_pos c
    simp only [List.length_cons]
    omega

theorem strLen_le_jencStr (s : String) : strLen s ≤ strLen (jencStr s) := by
  rw [jencStr, strLen, strLen]
  show s.data.length ≤ ('"' :: (s.data.flatMap escChar ++ ['"'])).length
  simp only [List.length_cons, List.length_append]
  have := length_le_flatMap_escChar s.data
  omega

/-- C1: the path-confinement check of `handle_request` is the string test
`abs_path.startswith(str(root_path))` (its own comment reads "Security:
ensure path is within root").  A sibling directory whose name extends the
root's name as a string passes the test: with root `/home/u/proj`, a
`squeeze` of `../proj2/secret.txt` resolves to `/home/u/proj2/secret.txt`
— not the root nor a descendant of it — yet the request is served rather
than failing with `Path outside project root`.  A path that escapes without
sharing the name prefix is still rejected. -/
theorem path_confinement_bug :
    handle_request demoWorld [("action", J.str "squeeze"), ("path", J.str "../proj2/secret.txt")]
      = jdumps (J.obj (.cons "skeleton" (.str "# secret") .nil))
    ∧ componentsUnder (resolvedAbs ["home", "u", "proj"] "../proj2/secret.txt")
        ["home", "u", "proj"] = false
    ∧ handle_request demoWorld [("action", J.str "squeeze"), ("path", J.str "../proj2/secret.txt")]
        ≠ errResp "Path outside project root"
    ∧ handle_request demoWorld [("action", J.str "squeeze"), ("path", J.str "../../etc/passwd")]
        = errResp "Path outside project root" :=
  ⟨by decide, by decide, by decide, by decide⟩

/-- C10: a valid JSON-object request with no `action` key is dispatched with
the empty string as action; no branch of the dispatch table matches, and the
response is exactly `{"error": "Unknown action: "}`. -/
theorem unknown_action_empty (w : World) (req : Req)
    (h : alookup req "action" = none) :
    handle_request w req = errResp "Unknown action: "
    ∧ handle_request w req = "\x7b\"error\": \"Unknown action: \"\x7d" := by
  have h1 : handle_request w req = errResp ("Unknown action: " ++ "") := by
    rw [handle_request, h]
    rw [Option.getD_none]
    show dispatch w req "" = _
    rw [dispatch]
    rw [if_neg (show ¬(("" : String) = "squeeze") from by decide)]
    rw [if_neg (show ¬(("" : String) = "find") from by decide)]
    rw [if_neg (show ¬(("" : String) = "tree") from by decide)]
    rw [if_neg (show ¬(("" : String) = "search") from by decide)]
    rw [if_neg (show ¬(("" : String) = "status") from by decide)]
    rw [if_neg (show ¬(("" : String) = "repl_init") from by decide)]
    rw [if_neg (show ¬(("" : String) = "repl_exec") from by decide)]
    rw [if_neg (show ¬(("" : String) = "repl_status") from by decide)]
    rw [if_neg (show ¬(("" : String) = "repl_reset") from by decide)]
    rw [if_neg (show ¬(("" : String) = "repl_export_buffers") from by decide)]
    rw [if_neg (show ¬(("" : String) = "chunks_list") from by decide)]
    rw [if_neg (show ¬(("" : String) = "chunks_read") from by decide)]
  have h2 : ("Unknown action: " ++ "" : String) = "Unknown action: " := by
    apply String.ext
    rw [String.data_append]
    simp
  rw [h1, h2]
  exact ⟨rfl, by decide⟩

theorem unknown_action_empty_witness :
    alookup ([("path", J.str "x")] : Req) "action" = none
    ∧ handle_request demoWorld [("path", J.str "x")] = errResp "Unknown action: " :=
  ⟨rfl, (unknown_action_empty demoWorld [("path", J.str "x")] rfl).1⟩

/-- C2 counterexample: no truncation is applied in `handle_request`; the
`chunks_read` response for a chunk file holding one 8100-character line
(exactly the chunk file `chunk_file` produces for that source) is longer
than 8000 characters and is not the health-probe `ALIVE`. -/
theorem response_exceeds_cap :
    8000 < strLen (handle_request bigWorld
        [("action", J.str "chunks_read"), ("path", J.str "big.txt"), ("chunk", J.num 0)])
    ∧ handle_request bigWorld
        [("action", J.str "chunks_read"), ("path", J.str "big.txt"), ("chunk", J.num 0)]
        ≠ "ALIVE"
    ∧ chunk_content "big.txt" [repChar 8100 'a'] 200 20 0
        = some ("# big.txt lines 1-1\n" ++ repChar 8100 'a') := by
  have hresp : handle_request bigWorld
      [("action", J.str "chunks_read"), ("path", J.str "big.txt"), ("chunk", J.num 0)]
      = jdumps (J.obj (.cons "content" (.str ("# big.txt lines 1-1\n" ++ repChar 8100 'a'))
          (.cons "chunk" (.num 0)
            (.cons "total_chunks" (.num 1)
              (.cons "lines" (.str ("1-1")) .nil))))) := rfl
  have hflat : jdumps (J.obj (.cons "content" (.str ("# big.txt lines 1-1\n" ++ repChar 8100 'a'))
      (.cons "chunk" (.num 0)
        (.cons "total_chunks" (.num 1)
          (.cons "lines" (.str ("1-1")) .nil)))))
      = "\x7b" ++ (jencStr "content" ++ ": "
          ++ jencStr ("# big.txt lines 1-1\n" ++ repChar 8100 'a') ++ ", "
          ++ jdumpsFields (.cons "chunk" (.num 0)
              (.cons "total_chunks" (.num 1)
                (.cons "lines" (.str ("1-1")) .nil)))) ++ "\x7d" := rfl
  have hbig : 8120 ≤ strLen (jencStr ("# big.txt lines 1-1\n" ++ repChar 8100 'a')) := by
    have h1 : strLen ("# big.txt lines 1-1\n" ++ repChar 8100 'a') = 8120 := by
      rw [strLen_append, strLen_repChar]
      decide
    have h2 := strLen_le_jencStr ("# big.txt lines 1-1\n" ++ repChar 8100 'a')
    omega
  have hlen : 8000 < strLen (handle_request bigWorld
      [("action", J.str "chunks_read"), ("path", J.str "big.txt"), ("chunk", J.num 0)]) := by
    rw [hresp, hflat]
    simp only [strLen_append]
    omega
  refine ⟨hlen, fun he => ?_, ?_⟩
  · rw [he] at hlen
    exact absurd hlen (by decide)
  · have hb : (chunk_file_boundaries 200 20
        ([repChar 8100 'a'] : List String).length).get? 0 = some (1, 1) := by decide
    rw [chunk_content, hb]
    show some ("# " ++ "big.txt" ++ " lines " ++ toString 1 ++ "-" ++ toString 1 ++ "\n"
        ++ strJoin (pySlice ([repChar 8100 'a'] : List String) (1 - 1) 1)) = _
    have hs : pySlice ([repChar 8100 'a'] : List String) (1 - 1) 1 = [repChar 8100 'a'] := rfl
    rw [hs, strJoin_single]
    exact congrArg some (congrArg (fun z => z ++ repChar 8100 'a') (by decide))

end RLM
